import Mathlib

/-!
Verification of the Minecraft server manager core (`server_manager.py`).

The Python module is embedded shallowly: the filesystem, the OS process
table and injected I/O faults form an explicit `World` state; every
operation of the `ServerManager` class becomes a pure Lean function from a
configuration, a world and its arguments to a result, a successor world
and (for the lifecycle operations) a trace of externally visible events
(signals sent, sleeps, file writes, process spawns).

Modelling conventions, stated once:
* paths are component lists (mirroring `pathlib.Path` parts); rendering to
  a string joins with "/";
* Python `int(s)` on PID-file contents is modelled for canonical decimal
  strings with optional sign and surrounding whitespace (the program only
  ever writes `str(pid)` there); exotic accepted forms such as digit
  underscores are outside the model;
* `time.sleep`, `os.kill` and `subprocess.Popen` are events in the trace;
  process disappearance during the stop polling loop is an oracle
  parameter (`vanish`), and exceptions raised by the OS calls are an
  injected-fault parameter, since both are environment behaviour;
* a directory named like one of the small state files would make the
  Python code raise on `open`; worlds are only considered with those
  paths as regular files, as on the real layout.
-/

namespace MCM

/-- Filesystem paths as component lists, mirroring `pathlib.Path` parts. -/
abbrev FPath := List String

/-! The string primitives below reimplement, by structural recursion on
the character list, exactly the library behaviour the Python code relies
on (`str.strip`, `str.startswith`, `str.endswith`, `int`, `str.split`,
path joining); the Lean core versions recurse on byte positions and do
not matter here. -/

/-- The whitespace characters `str.strip` removes in the inputs this
program can meet (space, tab, newline, carriage return). -/
def isWS (c : Char) : Bool :=
  c = ' ' || c = '\t' || c = '\n' || c = '\r'

/-- `s.strip()`. -/
def pyStrip (s : String) : String :=
  ⟨((s.data.dropWhile isWS).reverse.dropWhile isWS).reverse⟩

/-- `s.startswith(pre)`. -/
def strStartsWith (pre s : String) : Bool := pre.data.isPrefixOf s.data

/-- `s.endswith(suf)`. -/
def strEndsWith (suf s : String) : Bool := suf.data.isSuffixOf s.data

/-- The string without its first character (used after consuming a
sign). -/
def strTail (s : String) : String :=
  match s.data with
  | [] => s
  | _ :: cs => ⟨cs⟩

/-- Decimal digit accumulation: `some` value exactly when the character
list is nonempty and all digits. -/
def decDigits : List Char → Option Nat → Option Nat
  | [], acc => acc
  | c :: cs, acc =>
    if c.isDigit then decDigits cs (some ((acc.getD 0) * 10 + (c.toNat - 48)))
    else none

/-- `int(s)` for an unsigned decimal string. -/
def parseDecNat (s : String) : Option Nat := decDigits s.data none

/-- Splitting at a separator character, as `str.split` with a one
character separator: `splitChar '/' "a/b/" = ["a", "b", ""]`. -/
def splitCharAux (sep : Char) : List Char → List String
  | [] => [""]
  | c :: cs =>
    let r := splitCharAux sep cs
    if c = sep then "" :: r
    else
      match r with
      | [] => [⟨[c]⟩]
      | h :: t => ⟨c :: h.data⟩ :: t

/-- Splitting a string at every occurrence of a character. -/
def splitChar (sep : Char) (s : String) : List String := splitCharAux sep s.data

/-- Rendering of a path, as `str(Path(...))` produces it. -/
def joinP : FPath → String
  | [] => ""
  | [x] => x
  | x :: xs => x ++ "/" ++ joinP xs

/-- Parsing a rendered path back into components (used for the pointer
file content, which the code treats as a plain string path). -/
def parsePath (s : String) : FPath := splitChar '/' s

/-- Association-list lookup keyed by decidable equality; first binding
wins, like a real directory or process table with unique keys. -/
def alookup {κ α : Type} [DecidableEq κ] (k : κ) : List (κ × α) → Option α
  | [] => none
  | kv :: rest => if kv.1 = k then some kv.2 else alookup k rest

/-- One configured server definition (`config['servers'][id]`): only
`path` is accessed unconditionally in the source; the other fields are
read with `dict.get` and a default, hence optional here. -/
structure ServerDef where
  path : FPath
  jar : Option String
  memory : Option String
  name : Option String
  port : Option Nat
  deriving Repr, DecidableEq

/-- The manager configuration (`config.json` content). -/
structure Config where
  serversDir : FPath
  backupsDir : FPath
  servers : List (String × ServerDef)
  deriving Repr, DecidableEq

/-- Status of an entry of the OS process table as `psutil` reports it:
alive, or terminated but unreaped (zombie). -/
inductive ProcStatus
  | live
  | zombie
  deriving Repr, DecidableEq

/-- A process-table entry: its status plus the instantaneous CPU and
resident-memory readings `psutil` would sample for it. -/
structure ProcEntry where
  status : ProcStatus
  cpuPercent : Nat
  rssBytes : Nat
  deriving Repr, DecidableEq

/-- The explicit state the Python code manipulates: regular files with
their contents, directories with their modification times (seconds),
the OS process table keyed by PID, and the set of paths whose `open`
raises an I/O error (fault injection for the best-effort paths). -/
structure World where
  files : List (FPath × String)
  dirs : List (FPath × Nat)
  procs : List (Int × ProcEntry)
  ioErrors : List (FPath × String)
  deriving Repr, DecidableEq

/-- `Path.exists()`: true when the path names a regular file or a
directory. -/
def pathExists (w : World) (p : FPath) : Bool :=
  (alookup p w.files).isSome || (alookup p w.dirs).isSome

/-- `Path.unlink()` of a regular file. -/
def deleteFileW (w : World) (p : FPath) : World :=
  { w with files := w.files.filter (fun kv => decide (kv.1 ≠ p)) }

/-- `open(p, 'w').write(c)`: create or truncate-and-replace. -/
def setFile (w : World) (p : FPath) (c : String) : World :=
  { w with files := (p, c) :: w.files.filter (fun kv => decide (kv.1 ≠ p)) }

/-- `int(s)` restricted to canonical decimal strings: surrounding
whitespace stripped, one optional sign, then digits. -/
def pyParseInt (s : String) : Option Int :=
  let t := pyStrip s
  if strStartsWith "-" t then (parseDecNat (strTail t)).map (fun n => -(n : Int))
  else if strStartsWith "+" t then (parseDecNat (strTail t)).map (fun n => (n : Int))
  else (parseDecNat t).map (fun n => (n : Int))

/-- The PID-file path of a server (`Path(server['path']) / 'server.pid'`). -/
def pidPath (s : ServerDef) : FPath := s.path ++ ["server.pid"]

/-- The pointer-file path of a server (`.../current.log`). -/
def pointerPath (s : ServerDef) : FPath := s.path ++ ["current.log"]

/-- `ServerManager.is_running`: reads the PID file, parses it, probes the
process table, and deletes the PID file ("repair on read") whenever the
record turns out stale; returns the liveness verdict and the possibly
repaired world. -/
def is_running (cfg : Config) (w : World) (sid : String) : Bool × World :=
  match alookup sid cfg.servers with
  | none => (false, w)
  | some server =>
    match alookup (pidPath server) w.files with
    | none => (false, w)
    | some content =>
      match pyParseInt content with
      | none => (false, deleteFileW w (pidPath server))
      | some pid =>
        match alookup pid w.procs with
        | some entry =>
          match entry.status with
          | .live => (true, w)
          | .zombie => (false, deleteFileW w (pidPath server))
        | none => (false, deleteFileW w (pidPath server))

/-- The not-found message every configuration-miss path produces. -/
def notFoundMsg (sid : String) : String :=
  "Server \x27" ++ sid ++ "\x27 not found in configuration"

/-- The two POSIX signals the stop sequence uses. -/
inductive Sig
  | term
  | kill
  deriving Repr, DecidableEq

/-- Externally visible events of the lifecycle operations, in program
order: directory creations, file writes, process spawn, signals, sleeps
and unlinks. -/
inductive Event
  | mkdirp (p : FPath)
  | mkdir (p : FPath)
  | createFile (p : FPath)
  | writeFile (p : FPath) (content : String)
  | spawn (cmd : List String) (cwd : FPath)
  | signal (s : Sig) (pid : Int)
  | sleep (secs : Nat)
  | unlink (p : FPath)
  deriving Repr, DecidableEq

/-- Fault injection for `stop_server`: which OS interaction, if any,
raises an exception that is not `psutil.NoSuchProcess` (reading the PID
file, constructing `psutil.Process`, or `os.kill`). -/
inductive StopFault
  | noFault
  | readRaises (msg : String)
  | procRaises (msg : String)
  | killRaises (msg : String)
  deriving Repr, DecidableEq

/-- Environment oracle for the stop polling loop: with `vanish = some k`
the process has disappeared once `k` seconds of sleeping have elapsed
after the SIGTERM; with `none` it survives the whole graceful window. -/
def pidGone (vanish : Option Nat) (slept : Nat) : Bool :=
  match vanish with
  | none => false
  | some k => decide (k ≤ slept)

/-- The `for _ in range(30)` wait loop of `stop_server`: each iteration
probes `psutil.pid_exists` and sleeps one second unless the process is
gone; returns the total seconds slept and the sleep events emitted. -/
def pollLoop (vanish : Option Nat) : Nat → Nat → Nat × List Event
  | 0, slept => (slept, [])
  | n + 1, slept =>
    if pidGone vanish slept then (slept, [])
    else
      let r := pollLoop vanish n (slept + 1)
      (r.1, Event.sleep 1 :: r.2)

/-- `ServerManager.stop_server`: refuses unknown or non-running servers,
re-reads the PID, sends SIGTERM, polls up to 30 seconds, escalates to
SIGKILL plus a one-second grace when the process survived, removes the
PID file and reports success; any injected exception is caught and
surfaced as a failure with the world untouched. -/
def stop_server (cfg : Config) (w : World) (sid : String)
    (fault : StopFault) (vanish : Option Nat) :
    (Bool × String) × World × List Event :=
  match alookup sid cfg.servers with
  | none => ((false, notFoundMsg sid), w, [])
  | some server =>
    let rw := is_running cfg w sid
    if rw.1 then
      let w1 := rw.2
      let pf := pidPath server
      match fault with
      | .readRaises e => ((false, "Failed to stop server: " ++ e), w1, [])
      | fault' =>
        match (alookup pf w1.files).bind pyParseInt with
        | none =>
          -- unreachable after a positive liveness check; Python would
          -- raise ValueError here and the outer handler would catch it
          ((false, "Failed to stop server: invalid literal for int"), w1, [])
        | some pid =>
          match fault' with
          | .procRaises e => ((false, "Failed to stop server: " ++ e), w1, [])
          | .killRaises e => ((false, "Failed to stop server: " ++ e), w1, [])
          | _ =>
            let lp := pollLoop vanish 30 0
            let killEvs :=
              if pidGone vanish lp.1 then ([] : List Event)
              else [Event.signal .kill pid, Event.sleep 1]
            let w2 := if (alookup pf w1.files).isSome then deleteFileW w1 pf else w1
            ((true, "Server \x27" ++ sid ++ "\x27 stopped successfully"),
             w2,
             Event.signal .term pid :: lp.2 ++ killEvs ++ [Event.unlink pf])
    else
      ((false, "Server \x27" ++ sid ++ "\x27 is not running"), rw.2, [])

/-- `ServerManager.start_server`: refuses unknown or already-running
servers, ensures the working directory, requires the jar, ensures the
logs directory, creates the timestamped console log, spawns the java
process (`launch` is the spawn outcome oracle: the child PID or the
exception text), then records the PID file and the pointer file. -/
def start_server (cfg : Config) (w : World) (sid : String)
    (ts : String) (launch : Except String Int) :
    (Bool × String) × World × List Event :=
  match alookup sid cfg.servers with
  | none => ((false, notFoundMsg sid), w, [])
  | some server =>
    let rw := is_running cfg w sid
    if rw.1 then
      ((false, "Server \x27" ++ sid ++ "\x27 is already running"), rw.2, [])
    else
      let w1 := rw.2
      let sp := server.path
      let dirStep :=
        if pathExists w1 sp then (w1, ([] : List Event))
        else ({ w1 with dirs := (sp, 0) :: w1.dirs }, [Event.mkdirp sp])
      let w2 := dirStep.1
      let jarFile := sp ++ [server.jar.getD "server.jar"]
      if pathExists w2 jarFile then
        let logDir := sp ++ ["logs"]
        let logStep :=
          if pathExists w2 logDir then (w2, ([] : List Event))
          else ({ w2 with dirs := (logDir, 0) :: w2.dirs }, [Event.mkdir logDir])
        let w3 := logStep.1
        let memory := server.memory.getD "2G"
        let javaCmd :=
          ["java", "-Xmx" ++ memory, "-Xms" ++ memory, "-jar", joinP jarFile, "nogui"]
        let consoleLog := logDir ++ ["console_" ++ ts ++ ".log"]
        -- `open(console_log, 'w')` creates the (initially empty) log; the
        -- child process appends to it asynchronously, outside the model
        let w4 := setFile w3 consoleLog ""
        match launch with
        | .error e =>
          ((false, "Failed to start server: " ++ e), w4,
           dirStep.2 ++ logStep.2 ++ [Event.createFile consoleLog])
        | .ok newPid =>
          let w5 := setFile w4 (pidPath server) (toString newPid)
          let w6 := setFile w5 (pointerPath server) (joinP consoleLog)
          let w7 := { w6 with procs := (newPid, ⟨.live, 0, 0⟩) :: w6.procs }
          ((true,
            "Server \x27" ++ sid ++ "\x27 started successfully (PID: "
              ++ toString newPid ++ ")"),
           w7,
           dirStep.2 ++ logStep.2 ++
             [Event.createFile consoleLog, Event.spawn javaCmd sp,
              Event.writeFile (pidPath server) (toString newPid),
              Event.writeFile (pointerPath server) (joinP consoleLog)])
      else
        ((false, "Server jar not found at " ++ joinP jarFile), w2, dirStep.2)

/-- The record `get_server_status` assembles; the augmentation fields are
absent unless the server is running and inspection succeeded. -/
structure ServerStatus where
  id : String
  name : String
  running : Bool
  path : FPath
  port : Nat
  pid : Option Int
  cpu_percent : Option Nat
  memory_mb : Option ℚ
  deriving Repr, DecidableEq

/-- `ServerManager.get_server_status`: `none` for unknown ids; otherwise
the base record, best-effort augmented with PID, CPU and resident memory
when the liveness check (which may repair state) reports running. -/
def get_server_status (cfg : Config) (w : World) (sid : String) :
    Option ServerStatus × World :=
  match alookup sid cfg.servers with
  | none => (none, w)
  | some server =>
    let rw := is_running cfg w sid
    let base : ServerStatus :=
      { id := sid, name := server.name.getD sid, running := rw.1,
        path := server.path, port := server.port.getD 25565,
        pid := none, cpu_percent := none, memory_mb := none }
    if rw.1 then
      match (alookup (pidPath server) rw.2.files).bind pyParseInt with
      | none => (some base, rw.2)
      | some pid =>
        match alookup pid rw.2.procs with
        | none => (some base, rw.2)
        | some entry =>
          (some { base with pid := some pid,
                            cpu_percent := some entry.cpuPercent,
                            memory_mb := some ((entry.rssBytes : ℚ) / 1024 / 1024) },
           rw.2)
    else (some base, rw.2)

/-- `open(p).read()`: the injected fault, the content, or the errors
Python raises for a directory or a missing file. -/
def readFileEx (w : World) (p : FPath) : Except String String :=
  match alookup p w.ioErrors with
  | some e => .error e
  | none =>
    match alookup p w.files with
    | some c => .ok c
    | none =>
      if (alookup p w.dirs).isSome then
        .error ("[Errno 21] Is a directory: " ++ joinP p)
      else
        .error ("[Errno 2] No such file or directory: " ++ joinP p)

/-- `f.readlines()` semantics on a whole-file string: split at newlines,
keeping the terminator on every line that has one. -/
def withNL : List String → List String
  | [] => []
  | [lastPart] => if lastPart = "" then [] else [lastPart]
  | part :: rest => (part ++ "\n") :: withNL rest

/-- All lines of a file content, as `readlines` returns them. -/
def readlines (s : String) : List String := withNL (splitChar '\n' s)

/-- `all_lines[-lines:] if len(all_lines) > lines else all_lines`,
including the Python corner that `[-0:]` is the whole list. -/
def pyTail (xs : List String) (lines : Nat) : List String :=
  if xs.length > lines then
    if lines = 0 then xs else xs.drop (xs.length - lines)
  else xs

/-- `ServerManager.get_console_output`: `none` for unknown ids; empty
when the pointer file or the log it names is absent; a single synthetic
error line when reading either raises; otherwise the tail slice of the
log lines. -/
def get_console_output (cfg : Config) (w : World) (sid : String)
    (lines : Nat) : Option (List String) :=
  match alookup sid cfg.servers with
  | none => none
  | some server =>
    if pathExists w (pointerPath server) then
      match readFileEx w (pointerPath server) with
      | .error e => some ["Error reading console: " ++ e]
      | .ok content =>
        let logPath := parsePath (pyStrip content)
        if pathExists w logPath then
          match readFileEx w logPath with
          | .error e => some ["Error reading console: " ++ e]
          | .ok logContent => some (pyTail (readlines logContent) lines)
        else some []
    else some []

/-- Does a path component match one of the `copytree` ignore patterns
`*.pid` or `current.log`? -/
def excludedName (c : String) : Bool :=
  strEndsWith ".pid" c || c == "current.log"

/-- A relative path is pruned from the backup when any of its components
matches an ignore pattern (a matching directory is pruned whole). -/
def relExcluded (rel : FPath) : Bool := rel.any excludedName

/-- `stripPre src p = some rel` exactly when `p = src ++ rel`. -/
def stripPre : FPath → FPath → Option FPath
  | [], p => some p
  | _ :: _, [] => none
  | a :: as, b :: bs => if a = b then stripPre as bs else none

/-- The regular files `shutil.copytree` replicates from `src` into
`dst`: everything strictly under `src` whose relative path contains no
ignored component. -/
def copiedFiles (files : List (FPath × String)) (src dst : FPath) :
    List (FPath × String) :=
  files.filterMap fun pc =>
    match stripPre src pc.1 with
    | some rel =>
      if rel.isEmpty || relExcluded rel then none else some (dst ++ rel, pc.2)
    | none => none

/-- The directories `copytree` replicates, with their modification times
(`copystat` preserves them). -/
def copiedDirs (dirs : List (FPath × Nat)) (src dst : FPath) :
    List (FPath × Nat) :=
  dirs.filterMap fun pm =>
    match stripPre src pm.1 with
    | some rel =>
      if rel.isEmpty || relExcluded rel then none else some (dst ++ rel, pm.2)
    | none => none

/-- `ServerManager.create_backup`: refuses unknown ids and missing
working directories, refuses an already existing destination (the
`FileExistsError` of `copytree`), otherwise replicates the tree minus
the ignored files; per-file read faults are collected and surfaced as a
failure after the partial copy, as `shutil.Error` is. -/
def create_backup (cfg : Config) (w : World) (sid : String) (ts : String) :
    (Bool × String) × World :=
  match alookup sid cfg.servers with
  | none => ((false, notFoundMsg sid), w)
  | some server =>
    if pathExists w server.path then
      let backupName := sid ++ "_" ++ ts
      let backupPath := cfg.backupsDir ++ [backupName]
      if pathExists w backupPath then
        ((false,
          "Failed to create backup: [Errno 17] File exists: " ++ joinP backupPath),
         w)
      else
        let srcMtime := (alookup server.path w.dirs).getD 0
        let okSrc := w.files.filter (fun pc => (alookup pc.1 w.ioErrors).isNone)
        let badSrc := w.files.filter (fun pc => (alookup pc.1 w.ioErrors).isSome)
        let newFiles := copiedFiles okSrc server.path backupPath
        let errs := copiedFiles badSrc server.path backupPath
        let w' := { w with
          files := w.files ++ newFiles,
          dirs := w.dirs ++ (backupPath, srcMtime)
                    :: copiedDirs w.dirs server.path backupPath }
        if errs.isEmpty then
          ((true, "Backup created: " ++ backupName), w')
        else
          ((false, "Failed to create backup: errors during copy"), w')
    else
      ((false, "Server directory not found: " ++ joinP server.path), w)

/-- One row of `list_backups`: name, rendered path, directory
modification time (the ISO rendering is presentation and not modelled)
and total contained-file size in megabytes. -/
structure BackupEntry where
  name : String
  path : String
  created : Nat
  size_mb : ℚ
  deriving Repr, DecidableEq

/-- `sum(f.stat().st_size for f in backup.rglob('*') if f.is_file())`:
total bytes of the regular files strictly under a directory. -/
def sizeUnder (w : World) (root : FPath) : Nat :=
  (w.files.filterMap fun pc =>
    match stripPre root pc.1 with
    | some rel => if rel.isEmpty then none else some pc.2.utf8ByteSize
    | none => none).sum

/-- The names `backups_dir.iterdir()` can yield: every immediate child
of the root, file or directory. -/
def childNames (w : World) (root : FPath) : List String :=
  (w.files.map Prod.fst ++ w.dirs.map Prod.fst).filterMap fun p =>
    match stripPre root p with
    | some [n] => some n
    | _ => none

/-- Descending name order, the order `sorted(..., reverse=True)` uses
for sibling paths. -/
def revLe (a b : String) : Prop := b ≤ a

instance : DecidableRel revLe := fun a b => inferInstanceAs (Decidable (b ≤ a))

instance : IsTotal String revLe := ⟨fun a b => le_total b a⟩

instance : IsTrans String revLe := ⟨fun _ _ _ h h' => le_trans h' h⟩

/-- The optional `server_id` filter of `list_backups`. -/
def matchesSid : Option String → String → Bool
  | none, _ => true
  | some sid, n => strStartsWith (sid ++ "_") n

/-- The row `list_backups` builds for one child name: present exactly
when the child is a directory passing the filter. -/
def listEntry (cfg : Config) (w : World) (sid : Option String) (n : String) :
    Option BackupEntry :=
  match alookup (cfg.backupsDir ++ [n]) w.dirs with
  | some m =>
    if matchesSid sid n then
      some { name := n, path := joinP (cfg.backupsDir ++ [n]), created := m,
             size_mb := (sizeUnder w (cfg.backupsDir ++ [n]) : ℚ) / 1024 / 1024 }
    else none
  | none => none

/-- `ServerManager.list_backups`: empty when the backups root is absent;
otherwise the immediate children in reverse name order, keeping the
directories that pass the prefix filter, each with its rendered path,
modification time and accumulated size in megabytes. -/
def list_backups (cfg : Config) (w : World) (sid : Option String) :
    List BackupEntry :=
  if pathExists w cfg.backupsDir then
    (List.insertionSort revLe (childNames w cfg.backupsDir).dedup).filterMap
      (listEntry cfg w sid)
  else []

/-! ## Basic lemmas about the state primitives -/

theorem alookup_filter_ne_self {α : Type} (p : FPath) (l : List (FPath × α)) :
    alookup p (l.filter fun kv => decide (kv.1 ≠ p)) = none := by
  induction l with
  | nil => rfl
  | cons kv rest ih =>
    by_cases h : kv.1 = p
    · simpa [List.filter_cons, h] using ih
    · simpa [List.filter_cons, h, alookup] using ih

theorem alookup_filter_ne {α : Type} (q p : FPath) (hq : q ≠ p)
    (l : List (FPath × α)) :
    alookup q (l.filter fun kv => decide (kv.1 ≠ p)) = alookup q l := by
  induction l with
  | nil => rfl
  | cons kv rest ih =>
    by_cases h : kv.1 = p
    · have hkq : ¬ kv.1 = q := fun he => hq (he ▸ h)
      have hd : (decide (kv.1 ≠ p)) = false := by simp [h]
      rw [List.filter_cons, hd, if_neg Bool.false_ne_true, alookup, if_neg hkq]
      exact ih
    · have hd : (decide (kv.1 ≠ p)) = true := by simp [h]
      rw [List.filter_cons, hd, if_pos rfl, alookup, alookup]
      by_cases hk : kv.1 = q
      · rw [if_pos hk, if_pos hk]
      · rw [if_neg hk, if_neg hk]
        exact ih

theorem alookup_append_of_none {κ α : Type} [DecidableEq κ] (k : κ)
    {l₁ : List (κ × α)} (l₂ : List (κ × α)) (h : alookup k l₁ = none) :
    alookup k (l₁ ++ l₂) = alookup k l₂ := by
  induction l₁ with
  | nil => rfl
  | cons kv rest ih =>
    by_cases hk : kv.1 = k
    · rw [alookup, if_pos hk] at h
      cases h
    · rw [alookup, if_neg hk] at h
      rw [List.cons_append, alookup, if_neg hk]
      exact ih h

theorem alookup_append_of_some {κ α : Type} [DecidableEq κ] (k : κ)
    {l₁ : List (κ × α)} (l₂ : List (κ × α)) {v : α}
    (h : alookup k l₁ = some v) :
    alookup k (l₁ ++ l₂) = some v := by
  induction l₁ with
  | nil => cases h
  | cons kv rest ih =>
    by_cases hk : kv.1 = k
    · rw [alookup, if_pos hk] at h
      rw [List.cons_append, alookup, if_pos hk]
      exact h
    · rw [alookup, if_neg hk] at h
      rw [List.cons_append, alookup, if_neg hk]
      exact ih h

theorem alookup_mem {κ α : Type} [DecidableEq κ] {k : κ} {v : α}
    {l : List (κ × α)} (h : alookup k l = some v) : (k, v) ∈ l := by
  induction l with
  | nil => cases h
  | cons kv rest ih =>
    by_cases hk : kv.1 = k
    · rw [alookup, if_pos hk] at h
      have hv : kv.2 = v := by injection h
      have hkv : (k, v) = kv := Prod.ext hk.symm hv.symm
      exact List.mem_cons.mpr (Or.inl hkv)
    · rw [alookup, if_neg hk] at h
      exact List.mem_cons_of_mem _ (ih h)

theorem alookup_eq_none_of_not_key {κ α : Type} [DecidableEq κ] {k : κ}
    {l : List (κ × α)} (h : ∀ kv ∈ l, kv.1 ≠ k) : alookup k l = none := by
  induction l with
  | nil => rfl
  | cons kv rest ih =>
    have hk : kv.1 ≠ k := h kv (List.mem_cons_self _ _)
    simp only [alookup, if_neg hk]
    exact ih fun kv' hm => h kv' (List.mem_cons_of_mem _ hm)

/-- State change a stale-record repair performs: exactly one file is
gone, every other file is intact, and directories, processes and fault
sets are untouched. -/
def DeletedOnly (w w2 : World) (p : FPath) : Prop :=
  alookup p w2.files = none ∧
  (∀ q, q ≠ p → alookup q w2.files = alookup q w.files) ∧
  w2.dirs = w.dirs ∧ w2.procs = w.procs ∧ w2.ioErrors = w.ioErrors

theorem deletedOnly_deleteFileW (w : World) (p : FPath) :
    DeletedOnly w (deleteFileW w p) p :=
  ⟨alookup_filter_ne_self p w.files,
   fun q hq => alookup_filter_ne q p hq w.files, rfl, rfl, rfl⟩

/-! ## Shape lemmas for the liveness check -/

theorem is_running_unknown (cfg : Config) (w : World) (sid : String)
    (h : alookup sid cfg.servers = none) :
    is_running cfg w sid = (false, w) := by
  simp [is_running, h]

theorem is_running_no_pidfile (cfg : Config) (w : World) (sid : String)
    (server : ServerDef) (hs : alookup sid cfg.servers = some server)
    (hf : alookup (pidPath server) w.files = none) :
    is_running cfg w sid = (false, w) := by
  simp [is_running, hs, hf]

theorem is_running_live (cfg : Config) (w : World) (sid : String)
    (server : ServerDef) (content : String) (pid : Int) (entry : ProcEntry)
    (hs : alookup sid cfg.servers = some server)
    (hf : alookup (pidPath server) w.files = some content)
    (hp : pyParseInt content = some pid)
    (he : alookup pid w.procs = some entry)
    (hl : entry.status = .live) :
    is_running cfg w sid = (true, w) := by
  simp [is_running, hs, hf, hp, he, hl]

theorem is_running_badparse (cfg : Config) (w : World) (sid : String)
    (server : ServerDef) (content : String)
    (hs : alookup sid cfg.servers = some server)
    (hf : alookup (pidPath server) w.files = some content)
    (hp : pyParseInt content = none) :
    is_running cfg w sid = (false, deleteFileW w (pidPath server)) := by
  simp [is_running, hs, hf, hp]

theorem is_running_noproc (cfg : Config) (w : World) (sid : String)
    (server : ServerDef) (content : String) (pid : Int)
    (hs : alookup sid cfg.servers = some server)
    (hf : alookup (pidPath server) w.files = some content)
    (hp : pyParseInt content = some pid)
    (he : alookup pid w.procs = none) :
    is_running cfg w sid = (false, deleteFileW w (pidPath server)) := by
  simp [is_running, hs, hf, hp, he]

theorem is_running_zombie (cfg : Config) (w : World) (sid : String)
    (server : ServerDef) (content : String) (pid : Int) (entry : ProcEntry)
    (hs : alookup sid cfg.servers = some server)
    (hf : alookup (pidPath server) w.files = some content)
    (hp : pyParseInt content = some pid)
    (he : alookup pid w.procs = some entry)
    (hz : entry.status = .zombie) :
    is_running cfg w sid = (false, deleteFileW w (pidPath server)) := by
  simp [is_running, hs, hf, hp, he, hz]

/-! ## Claim theorems -/

/-- C1: for a configured server whose PID file exists, `is_running`
deletes the PID file and returns false when the content does not parse,
when the parsed PID is absent from the process table, or when it is a
zombie; it returns true and leaves the world intact when the PID is a
live process. -/
theorem c1_is_running_repairs_stale_pid (cfg : Config) (w : World)
    (sid : String) (server : ServerDef) (content : String)
    (hs : alookup sid cfg.servers = some server)
    (hf : alookup (pidPath server) w.files = some content) :
    (pyParseInt content = none →
      (is_running cfg w sid).1 = false ∧
      DeletedOnly w (is_running cfg w sid).2 (pidPath server)) ∧
    (∀ pid : Int, pyParseInt content = some pid →
      alookup pid w.procs = none →
      (is_running cfg w sid).1 = false ∧
      DeletedOnly w (is_running cfg w sid).2 (pidPath server)) ∧
    (∀ (pid : Int) (entry : ProcEntry), pyParseInt content = some pid →
      alookup pid w.procs = some entry → entry.status = .zombie →
      (is_running cfg w sid).1 = false ∧
      DeletedOnly w (is_running cfg w sid).2 (pidPath server)) ∧
    (∀ (pid : Int) (entry : ProcEntry), pyParseInt content = some pid →
      alookup pid w.procs = some entry → entry.status = .live →
      is_running cfg w sid = (true, w)) := by
  refine ⟨?_, ?_, ?_, ?_⟩
  · intro hp
    rw [is_running_badparse cfg w sid server content hs hf hp]
    exact ⟨rfl, deletedOnly_deleteFileW w (pidPath server)⟩
  · intro pid hp he
    rw [is_running_noproc cfg w sid server content pid hs hf hp he]
    exact ⟨rfl, deletedOnly_deleteFileW w (pidPath server)⟩
  · intro pid entry hp he hz
    rw [is_running_zombie cfg w sid server content pid entry hs hf hp he hz]
    exact ⟨rfl, deletedOnly_deleteFileW w (pidPath server)⟩
  · intro pid entry hp he hl
    exact is_running_live cfg w sid server content pid entry hs hf hp he hl

/-! Concrete fixtures used by the witnesses. -/

def serverA : ServerDef :=
  { path := ["srv", "a"], jar := none, memory := none, name := none,
    port := none }

def cfg0 : Config :=
  { serversDir := ["servers"], backupsDir := ["backups"],
    servers := [("a", serverA)] }

def liveEntry : ProcEntry :=
  { status := .live, cpuPercent := 3, rssBytes := 2097152 }

def wLive : World :=
  { files := [(["srv", "a", "server.pid"], "42")],
    dirs := [(["srv", "a"], 100)],
    procs := [((42 : Int), liveEntry)],
    ioErrors := [] }

theorem c1_witness :
    alookup "a" cfg0.servers = some serverA ∧
    alookup (pidPath serverA) wLive.files = some "42" ∧
    pyParseInt "42" = some 42 ∧
    is_running cfg0 wLive "a" = (true, wLive) := by
  refine ⟨by decide, by decide, by decide, ?_⟩
  exact (c1_is_running_repairs_stale_pid cfg0 wLive "a" serverA "42"
    (by decide) (by decide)).2.2.2 42 liveEntry (by decide) (by decide) rfl

/-- A fixture for the unconfigured-id listing: no files, but the backups
root already holds a stale directory `ghost_2024`. -/
def wGhost : World :=
  { files := [],
    dirs := [(["backups"], 50), (["backups", "ghost_2024"], 60)],
    procs := [],
    ioErrors := [] }

/-- C3 counterexample: `list_backups` never consults the configuration,
so for the unconfigured id `ghost` it returns an ordinary — here
nonempty — listing of the existing `ghost_`-prefixed backup
directories, neither a false-success-flag result nor a null result;
the claim that EVERY operation returns a NotFound result for an
unconfigured id is therefore false at this input. -/
theorem c3_counterexample_list_backups_listing :
    alookup "ghost" cfg0.servers = none ∧
    (list_backups cfg0 wGhost (some "ghost")).map (fun e => e.name) =
      ["ghost_2024"] ∧
    ¬ ((list_backups cfg0 wGhost (some "ghost")).map (fun e => e.name) = []) :=
  ⟨by decide, by decide, by decide⟩

/-- C3 (amended): for a server identifier absent from the configuration,
every configuration-consulting operation — `is_running`, `start_server`,
`stop_server`, `get_server_status`, `get_console_output`,
`create_backup` — returns its not-found result (false flag with the
not-found message, or no record) and leaves the world, and hence the
filesystem, exactly as it was, emitting no effect event; `list_backups`
never reads the server map at all (its result is unchanged under any
replacement of the configuration that keeps the backups root) and so
returns the ordinary prefix-filtered listing of existing backup
directories rather than a NotFound result, while performing no
filesystem mutation either (it yields no successor world). -/
theorem c3_unknown_id_no_mutation (cfg : Config) (w : World) (sid : String)
    (ts : String) (launch : Except String Int) (fault : StopFault)
    (vanish : Option Nat) (lines : Nat)
    (h : alookup sid cfg.servers = none) :
    is_running cfg w sid = (false, w) ∧
    start_server cfg w sid ts launch = ((false, notFoundMsg sid), w, []) ∧
    stop_server cfg w sid fault vanish = ((false, notFoundMsg sid), w, []) ∧
    get_server_status cfg w sid = (none, w) ∧
    get_console_output cfg w sid lines = none ∧
    create_backup cfg w sid ts = ((false, notFoundMsg sid), w) ∧
    (∀ cfg' : Config, cfg'.backupsDir = cfg.backupsDir →
      list_backups cfg' w (some sid) = list_backups cfg w (some sid)) := by
  refine ⟨is_running_unknown cfg w sid h, ?_, ?_, ?_, ?_, ?_, ?_⟩
  · simp [start_server, h]
  · simp [stop_server, h]
  · simp [get_server_status, h]
  · simp [get_console_output, h]
  · simp [create_backup, h]
  · intro cfg' hb
    have hent : listEntry cfg' w (some sid) = listEntry cfg w (some sid) := by
      funext n
      simp only [listEntry, hb]
    simp only [list_backups, hb, hent]

/-- A second configuration with the same backups root and no servers at
all, used to witness that `list_backups` ignores the server map. -/
def cfgNoServers : Config :=
  { serversDir := ["servers"], backupsDir := ["backups"], servers := [] }

theorem c3_witness :
    alookup "ghost" cfg0.servers = none ∧
    start_server cfg0 wLive "ghost" "T" (.ok 7) =
      ((false, notFoundMsg "ghost"), wLive, []) ∧
    get_console_output cfg0 wLive "ghost" 10 = none ∧
    list_backups cfgNoServers wLive (some "ghost") =
      list_backups cfg0 wLive (some "ghost") :=
  ⟨by decide,
   (c3_unknown_id_no_mutation cfg0 wLive "ghost" "T" (.ok 7) .noFault none 10
      (by decide)).2.1,
   (c3_unknown_id_no_mutation cfg0 wLive "ghost" "T" (.ok 7) .noFault none 10
      (by decide)).2.2.2.2.1,
   (c3_unknown_id_no_mutation cfg0 wLive "ghost" "T" (.ok 7) .noFault none 10
      (by decide)).2.2.2.2.2.2 cfgNoServers rfl⟩

theorem pollLoop_spec (vanish : Option Nat) :
    ∀ (n slept : Nat),
      slept ≤ (pollLoop vanish n slept).1 ∧
      (pollLoop vanish n slept).1 ≤ slept + n ∧
      (pollLoop vanish n slept).2 =
        List.replicate ((pollLoop vanish n slept).1 - slept) (Event.sleep 1) := by
  intro n
  induction n with
  | zero =>
    intro slept
    exact ⟨Nat.le_refl _, Nat.le_refl _, by simp [pollLoop]⟩
  | succ n ih =>
    intro slept
    cases hg : pidGone vanish slept with
    | true =>
      refine ⟨?_, ?_, ?_⟩ <;> simp [pollLoop, hg]
    | false =>
      obtain ⟨h1, h2, h3⟩ := ih (slept + 1)
      have hr : pollLoop vanish (n + 1) slept =
          ((pollLoop vanish n (slept + 1)).1,
           Event.sleep 1 :: (pollLoop vanish n (slept + 1)).2) := by
        simp [pollLoop, hg]
      refine ⟨?_, ?_, ?_⟩
      · rw [hr]
        omega
      · rw [hr]
        omega
      · rw [hr]
        have hsub : (pollLoop vanish n (slept + 1)).1 - slept =
            ((pollLoop vanish n (slept + 1)).1 - (slept + 1)) + 1 := by omega
        rw [hsub, List.replicate_succ, h3]

theorem stop_server_happy (cfg : Config) (w : World) (sid : String)
    (server : ServerDef) (content : String) (pid : Int) (entry : ProcEntry)
    (vanish : Option Nat)
    (hs : alookup sid cfg.servers = some server)
    (hf : alookup (pidPath server) w.files = some content)
    (hp : pyParseInt content = some pid)
    (he : alookup pid w.procs = some entry)
    (hl : entry.status = .live) :
    stop_server cfg w sid .noFault vanish =
      ((true, "Server \x27" ++ sid ++ "\x27 stopped successfully"),
       deleteFileW w (pidPath server),
       Event.signal .term pid ::
         (pollLoop vanish 30 0).2 ++
           (if pidGone vanish (pollLoop vanish 30 0).1 then ([] : List Event)
            else [Event.signal .kill pid, Event.sleep 1]) ++
           [Event.unlink (pidPath server)]) := by
  have hrun := is_running_live cfg w sid server content pid entry hs hf hp he hl
  simp [stop_server, hs, hrun, hf, hp]

/-- C2: stopping a configured running server sends SIGTERM to the
recorded PID, sleeps at most 30 one-second polling intervals, sends
SIGKILL plus one more second exactly when the process is still present
after the polling window, deletes the PID file (and nothing else) and
returns success. -/
theorem c2_stop_graceful_then_forced (cfg : Config) (w : World) (sid : String)
    (server : ServerDef) (content : String) (pid : Int) (entry : ProcEntry)
    (vanish : Option Nat)
    (hs : alookup sid cfg.servers = some server)
    (hf : alookup (pidPath server) w.files = some content)
    (hp : pyParseInt content = some pid)
    (he : alookup pid w.procs = some entry)
    (hl : entry.status = .live) :
    (stop_server cfg w sid .noFault vanish).1 =
      (true, "Server \x27" ++ sid ++ "\x27 stopped successfully") ∧
    DeletedOnly w (stop_server cfg w sid .noFault vanish).2.1 (pidPath server) ∧
    ∃ n : Nat, n ≤ 30 ∧
      (stop_server cfg w sid .noFault vanish).2.2 =
        Event.signal .term pid ::
          List.replicate n (Event.sleep 1) ++
            (if pidGone vanish n then ([] : List Event)
             else [Event.signal .kill pid, Event.sleep 1]) ++
            [Event.unlink (pidPath server)] := by
  rw [stop_server_happy cfg w sid server content pid entry vanish hs hf hp he hl]
  obtain ⟨h1, h2, h3⟩ := pollLoop_spec vanish 30 0
  refine ⟨rfl, deletedOnly_deleteFileW w (pidPath server),
    (pollLoop vanish 30 0).1, by omega, ?_⟩
  rw [h3, Nat.sub_zero]

theorem c2_witness :
    alookup "a" cfg0.servers = some serverA ∧
    pyParseInt "42" = some 42 ∧
    (stop_server cfg0 wLive "a" .noFault (some 2)).1 =
      (true, "Server \x27" ++ "a" ++ "\x27 stopped successfully") :=
  ⟨by decide, by decide,
   (c2_stop_graceful_then_forced cfg0 wLive "a" serverA "42" 42 liveEntry
      (some 2) (by decide) (by decide) (by decide) (by decide) rfl).1⟩

/-- C6: when reading the PID file, probing the process or signalling it
raises inside `stop_server`, the exception is caught, the call fails
with the error text, and the whole world — the PID file included — is
exactly as before the call, with no event emitted. -/
theorem c6_stop_exception_leaves_state (cfg : Config) (w : World)
    (sid : String) (server : ServerDef) (content : String) (pid : Int)
    (entry : ProcEntry) (e : String) (vanish : Option Nat)
    (hs : alookup sid cfg.servers = some server)
    (hf : alookup (pidPath server) w.files = some content)
    (hp : pyParseInt content = some pid)
    (he : alookup pid w.procs = some entry)
    (hl : entry.status = .live) :
    stop_server cfg w sid (.readRaises e) vanish =
      ((false, "Failed to stop server: " ++ e), w, []) ∧
    stop_server cfg w sid (.procRaises e) vanish =
      ((false, "Failed to stop server: " ++ e), w, []) ∧
    stop_server cfg w sid (.killRaises e) vanish =
      ((false, "Failed to stop server: " ++ e), w, []) := by
  have hrun := is_running_live cfg w sid server content pid entry hs hf hp he hl
  refine ⟨?_, ?_, ?_⟩ <;> simp [stop_server, hs, hrun, hf, hp]

theorem c6_witness :
    alookup "a" cfg0.servers = some serverA ∧
    stop_server cfg0 wLive "a" (.killRaises "Operation not permitted") none =
      ((false, "Failed to stop server: " ++ "Operation not permitted"),
       wLive, []) :=
  ⟨by decide,
   (c6_stop_exception_leaves_state cfg0 wLive "a" serverA "42" 42 liveEntry
      "Operation not permitted" none (by decide) (by decide) (by decide)
      (by decide) rfl).2.2⟩

/-- C7: starting a server whose liveness check reports running fails
with the already-running message and changes nothing: same world (in
particular the PID file is untouched) and no effect event. -/
theorem c7_start_already_running_untouched (cfg : Config) (w : World)
    (sid : String) (server : ServerDef) (content : String) (pid : Int)
    (entry : ProcEntry) (ts : String) (launch : Except String Int)
    (hs : alookup sid cfg.servers = some server)
    (hf : alookup (pidPath server) w.files = some content)
    (hp : pyParseInt content = some pid)
    (he : alookup pid w.procs = some entry)
    (hl : entry.status = .live) :
    start_server cfg w sid ts launch =
      ((false, "Server \x27" ++ sid ++ "\x27 is already running"), w, []) := by
  have hrun := is_running_live cfg w sid server content pid entry hs hf hp he hl
  simp [start_server, hs, hrun]

theorem c7_witness :
    alookup "a" cfg0.servers = some serverA ∧
    start_server cfg0 wLive "a" "2025-01-01_00-00-00" (.ok 99) =
      ((false, "Server \x27" ++ "a" ++ "\x27 is already running"), wLive, []) :=
  ⟨by decide,
   c7_start_already_running_untouched cfg0 wLive "a" serverA "42" 42 liveEntry
     "2025-01-01_00-00-00" (.ok 99) (by decide) (by decide) (by decide)
     (by decide) rfl⟩

/-! ## Helper lemmas for the console and start paths -/

theorem pathExists_of_file {w : World} {p : FPath} {c : String}
    (h : alookup p w.files = some c) : pathExists w p = true := by
  simp [pathExists, h]

theorem ne_append_singleton (p : FPath) (x : String) : p ≠ p ++ [x] := by
  intro h
  have := congrArg List.length h
  simp at this

theorem pathExists_dirCons_ne (w : World) (q : FPath) (m : Nat) (p : FPath)
    (hne : ¬ q = p) :
    pathExists { w with dirs := (q, m) :: w.dirs } p = pathExists w p := by
  simp [pathExists, alookup, hne]

theorem pyTail_pos (xs : List String) (lines : Nat) (h : 1 ≤ lines) :
    pyTail xs lines = xs.drop (xs.length - lines) := by
  unfold pyTail
  by_cases hlen : xs.length > lines
  · have h0 : ¬ lines = 0 := by omega
    simp [hlen, h0]
  · have h0 : xs.length - lines = 0 := by omega
    simp [hlen, h0]

/-- C4 (amended): for a configured server, an absent pointer file or an
absent target log yields the empty sequence, and for `maxLines ≥ 1` the
call returns exactly the last `min(length, maxLines)` log lines in
original order — hence at most `maxLines` of them. (`maxLines = 0`
returns the whole file, see the counterexample.) -/
theorem c4_console_tail_amended (cfg : Config) (w : World) (sid : String)
    (server : ServerDef) (lines : Nat)
    (hs : alookup sid cfg.servers = some server) :
    (pathExists w (pointerPath server) = false →
      get_console_output cfg w sid lines = some []) ∧
    (∀ content, alookup (pointerPath server) w.ioErrors = none →
      alookup (pointerPath server) w.files = some content →
      pathExists w (parsePath (pyStrip content)) = false →
      get_console_output cfg w sid lines = some []) ∧
    (∀ content logC, alookup (pointerPath server) w.ioErrors = none →
      alookup (pointerPath server) w.files = some content →
      alookup (parsePath (pyStrip content)) w.ioErrors = none →
      alookup (parsePath (pyStrip content)) w.files = some logC →
      1 ≤ lines →
      get_console_output cfg w sid lines =
        some ((readlines logC).drop ((readlines logC).length - lines)) ∧
      ((readlines logC).drop ((readlines logC).length - lines)).length ≤ lines) := by
  refine ⟨?_, ?_, ?_⟩
  · intro h
    simp [get_console_output, hs, h]
  · intro content hio hfile htgt
    simp [get_console_output, hs, pathExists_of_file hfile, readFileEx, hio,
      hfile, htgt]
  · intro content logC hio hfile htio htfile hlines
    constructor
    · simp [get_console_output, hs, pathExists_of_file hfile, readFileEx, hio,
        hfile, htio, pathExists_of_file htfile, htfile,
        pyTail_pos (readlines logC) lines hlines]
    · rw [List.length_drop]
      omega

/-- A console fixture: the pointer file names a three-line log. -/
def wConsole : World :=
  { files := [(["srv", "a", "current.log"], "srv/a/logs/c.log"),
              (["srv", "a", "logs", "c.log"], "a\nb\nc\n")],
    dirs := [(["srv", "a"], 100)],
    procs := [],
    ioErrors := [] }

/-- C4 counterexample: with `maxLines = 0` the code returns the whole
log (`all_lines[-0:]` is the full list in Python), not at most zero
lines. -/
theorem c4_counterexample_zero_maxlines :
    get_console_output cfg0 wConsole "a" 0 = some ["a\n", "b\n", "c\n"] ∧
    ¬ ((["a\n", "b\n", "c\n"] : List String).length ≤ 0) :=
  ⟨by decide, by decide⟩

theorem c4_witness :
    alookup "a" cfg0.servers = some serverA ∧
    get_console_output cfg0 wConsole "a" 2 =
      some ((readlines "a\nb\nc\n").drop ((readlines "a\nb\nc\n").length - 2)) ∧
    ((readlines "a\nb\nc\n").drop ((readlines "a\nb\nc\n").length - 2)).length ≤ 2 :=
  ⟨by decide,
   ((c4_console_tail_amended cfg0 wConsole "a" serverA 2 (by decide)).2.2
      "srv/a/logs/c.log" "a\nb\nc\n" (by decide) (by decide) (by decide)
      (by decide) (by decide)).1,
   ((c4_console_tail_amended cfg0 wConsole "a" serverA 2 (by decide)).2.2
      "srv/a/logs/c.log" "a\nb\nc\n" (by decide) (by decide) (by decide)
      (by decide) (by decide)).2⟩

set_option maxRecDepth 4000 in
theorem start_server_missing_jar (cfg : Config) (w : World) (sid : String)
    (server : ServerDef) (ts : String) (launch : Except String Int)
    (hs : alookup sid cfg.servers = some server)
    (hnr : (is_running cfg w sid).1 = false)
    (hjar : pathExists (is_running cfg w sid).2
        (server.path ++ [server.jar.getD "server.jar"]) = false) :
    start_server cfg w sid ts launch =
      if pathExists (is_running cfg w sid).2 server.path then
        ((false, "Server jar not found at " ++
            joinP (server.path ++ [server.jar.getD "server.jar"])),
         (is_running cfg w sid).2, [])
      else
        ((false, "Server jar not found at " ++
            joinP (server.path ++ [server.jar.getD "server.jar"])),
         { (is_running cfg w sid).2 with
             dirs := (server.path, 0) :: (is_running cfg w sid).2.dirs },
         [Event.mkdirp server.path]) := by
  have hjq : ¬ server.path = server.path ++ [server.jar.getD "server.jar"] :=
    ne_append_singleton server.path _
  rcases hw : is_running cfg w sid with ⟨b, w1⟩
  have hb : b = false := by rw [hw] at hnr; exact hnr
  subst hb
  rw [hw] at hjar
  dsimp only at hjar ⊢
  by_cases hex : pathExists w1 server.path
  · simp [start_server, hs, hw, hex, hjar]
  · have hjar2 : pathExists { w1 with dirs := (server.path, 0) :: w1.dirs }
        (server.path ++ [server.jar.getD "server.jar"]) = false := by
      rw [pathExists_dirCons_ne _ _ _ _ hjq]
      exact hjar
    simp [start_server, hs, hw, hex, hjar, hjar2]

/-- C5 (amended): starting a configured, non-running server whose jar is
absent ensures the working directory (and nothing more: the `logs`
subdirectory is NOT created, the jar check comes first in the code),
returns the jar-not-found failure, and writes no file at all — in
particular no PID file and no pointer file. -/
theorem c5_start_missing_jar_amended (cfg : Config) (w : World) (sid : String)
    (server : ServerDef) (ts : String) (launch : Except String Int)
    (hs : alookup sid cfg.servers = some server)
    (hnr : (is_running cfg w sid).1 = false)
    (hjar : pathExists (is_running cfg w sid).2
        (server.path ++ [server.jar.getD "server.jar"]) = false) :
    (start_server cfg w sid ts launch).1 =
      (false, "Server jar not found at " ++
        joinP (server.path ++ [server.jar.getD "server.jar"])) ∧
    (start_server cfg w sid ts launch).2.1.files =
      (is_running cfg w sid).2.files ∧
    pathExists (start_server cfg w sid ts launch).2.1 server.path = true ∧
    (alookup (server.path ++ ["logs"]) (is_running cfg w sid).2.dirs = none →
      alookup (server.path ++ ["logs"])
        (start_server cfg w sid ts launch).2.1.dirs = none) ∧
    ((start_server cfg w sid ts launch).2.2 = [] ∨
     (start_server cfg w sid ts launch).2.2 = [Event.mkdirp server.path]) := by
  rw [start_server_missing_jar cfg w sid server ts launch hs hnr hjar]
  have hlq : ¬ (server.path, 0).1 = server.path ++ ["logs"] :=
    ne_append_singleton server.path "logs"
  by_cases hex : pathExists (is_running cfg w sid).2 server.path
  · rw [if_pos hex]
    exact ⟨rfl, rfl, hex, fun h => h, Or.inl rfl⟩
  · rw [if_neg hex]
    refine ⟨rfl, rfl, ?_, ?_, Or.inr rfl⟩
    · simp [pathExists, alookup]
    · intro h
      rw [alookup, if_neg hlq]
      exact h

/-- A fixture whose working directory exists but holds no jar. -/
def wNoJar : World :=
  { files := [], dirs := [(["srv", "a"], 100)], procs := [], ioErrors := [] }

/-- C5 counterexample: on a configured, non-running server with the jar
absent, the code returns the jar-not-found failure WITHOUT having
created the `logs` subdirectory, contradicting the claim that the logs
subdirectory is ensured before that failure. -/
theorem c5_counterexample_logs_not_created :
    (alookup "a" cfg0.servers).isSome = true ∧
    (is_running cfg0 wNoJar "a").1 = false ∧
    pathExists wNoJar ["srv", "a", "server.jar"] = false ∧
    (start_server cfg0 wNoJar "a" "T" (.ok 7)).1 =
      (false, "Server jar not found at srv/a/server.jar") ∧
    alookup ["srv", "a", "logs"]
      (start_server cfg0 wNoJar "a" "T" (.ok 7)).2.1.dirs = none :=
  ⟨by decide, by decide, by decide, by decide, by decide⟩

theorem c5_witness :
    alookup "a" cfg0.servers = some serverA ∧
    (start_server cfg0 wNoJar "a" "T" (.ok 7)).1 =
      (false, "Server jar not found at " ++
        joinP (serverA.path ++ [serverA.jar.getD "server.jar"])) ∧
    pathExists (start_server cfg0 wNoJar "a" "T" (.ok 7)).2.1 serverA.path =
      true :=
  ⟨by decide,
   (c5_start_missing_jar_amended cfg0 wNoJar "a" serverA "T" (.ok 7)
      (by decide) (by decide) (by decide)).1,
   (c5_start_missing_jar_amended cfg0 wNoJar "a" serverA "T" (.ok 7)
      (by decide) (by decide) (by decide)).2.2.1⟩

/-- C9: an I/O error while reading the pointer file, or while reading
the log file it names, makes `get_console_output` return exactly one
synthetic line carrying the error text — it neither raises nor returns
a failure result. -/
theorem c9_console_io_error_single_line (cfg : Config) (w : World)
    (sid : String) (server : ServerDef) (lines : Nat)
    (hs : alookup sid cfg.servers = some server) :
    (∀ e, alookup (pointerPath server) w.ioErrors = some e →
      pathExists w (pointerPath server) = true →
      get_console_output cfg w sid lines =
        some ["Error reading console: " ++ e]) ∧
    (∀ content e, alookup (pointerPath server) w.ioErrors = none →
      alookup (pointerPath server) w.files = some content →
      alookup (parsePath (pyStrip content)) w.ioErrors = some e →
      pathExists w (parsePath (pyStrip content)) = true →
      get_console_output cfg w sid lines =
        some ["Error reading console: " ++ e]) := by
  constructor
  · intro e hio hex
    simp [get_console_output, hs, hex, readFileEx, hio]
  · intro content e hio hfile htio htex
    simp [get_console_output, hs, pathExists_of_file hfile, readFileEx, hio,
      hfile, htio, htex]

/-- A fixture where the active log exists but reading it raises. -/
def wConsoleErr : World :=
  { files := [(["srv", "a", "current.log"], "srv/a/logs/c.log"),
              (["srv", "a", "logs", "c.log"], "unreadable")],
    dirs := [(["srv", "a"], 100)],
    procs := [],
    ioErrors := [(["srv", "a", "logs", "c.log"], "Input/output error")] }

theorem c9_witness :
    alookup "a" cfg0.servers = some serverA ∧
    get_console_output cfg0 wConsoleErr "a" 50 =
      some ["Error reading console: " ++ "Input/output error"] :=
  ⟨by decide,
   (c9_console_io_error_single_line cfg0 wConsoleErr "a" serverA 50
      (by decide)).2 "srv/a/logs/c.log" "Input/output error" (by decide)
      (by decide) (by decide) (by decide)⟩

/-- C10: a configured server definition that omits the optional fields
is served with defaults rather than failing — the launch command uses
jar `server.jar` and memory `2G` for both heap bounds, and the status
record uses the identifier as display name and port 25565; only the
`path` field is unconditionally accessed (it is the one non-optional
field of `ServerDef`). -/
theorem c10_optional_fields_defaults (cfg : Config) (w : World) (sid : String)
    (server : ServerDef) (ts : String) (newPid : Int)
    (hs : alookup sid cfg.servers = some server)
    (hjar0 : server.jar = none) (hmem0 : server.memory = none)
    (hname0 : server.name = none) (hport0 : server.port = none)
    (hnopid : alookup (pidPath server) w.files = none)
    (hjar : pathExists w (server.path ++ ["server.jar"]) = true) :
    Event.spawn ["java", "-Xmx2G", "-Xms2G", "-jar",
        joinP (server.path ++ ["server.jar"]), "nogui"] server.path
      ∈ (start_server cfg w sid ts (.ok newPid)).2.2 ∧
    (start_server cfg w sid ts (.ok newPid)).1.1 = true ∧
    (get_server_status cfg w sid).1 =
      some { id := sid, name := sid, running := false, path := server.path,
             port := 25565, pid := none, cpu_percent := none,
             memory_mb := none } := by
  have hrun := is_running_no_pidfile cfg w sid server hs hnopid
  have hjq : ¬ server.path = server.path ++ ["server.jar"] :=
    ne_append_singleton server.path "server.jar"
  refine ⟨?_, ?_, ?_⟩
  · by_cases hex : pathExists w server.path
    · by_cases hlog : pathExists w (server.path ++ ["logs"])
      · simp [start_server, hs, hrun, hjar0, hmem0, hex, hjar, hlog]
      · simp [start_server, hs, hrun, hjar0, hmem0, hex, hjar, hlog]
    · have hjar2 : pathExists { w with dirs := (server.path, 0) :: w.dirs }
          (server.path ++ ["server.jar"]) = true := by
        rw [pathExists_dirCons_ne _ _ _ _ hjq]
        exact hjar
      by_cases hlog : pathExists { w with dirs := (server.path, 0) :: w.dirs }
          (server.path ++ ["logs"])
      · simp [start_server, hs, hrun, hjar0, hmem0, hex, hjar2, hlog]
      · simp [start_server, hs, hrun, hjar0, hmem0, hex, hjar2, hlog]
  · by_cases hex : pathExists w server.path
    · simp [start_server, hs, hrun, hjar0, hmem0, hex, hjar]
    · have hjar2 : pathExists { w with dirs := (server.path, 0) :: w.dirs }
          (server.path ++ ["server.jar"]) = true := by
        rw [pathExists_dirCons_ne _ _ _ _ hjq]
        exact hjar
      simp [start_server, hs, hrun, hjar0, hmem0, hex, hjar2]
  · simp [get_server_status, hs, hrun, hname0, hport0]

/-- A fixture ready to start: jar present, no PID file. -/
def wStart : World :=
  { files := [(["srv", "a", "server.jar"], "JAR")],
    dirs := [(["srv", "a"], 100)],
    procs := [],
    ioErrors := [] }

theorem c10_witness :
    alookup "a" cfg0.servers = some serverA ∧
    Event.spawn ["java", "-Xmx2G", "-Xms2G", "-jar",
        joinP (serverA.path ++ ["server.jar"]), "nogui"] serverA.path
      ∈ (start_server cfg0 wStart "a" "T" (.ok 7)).2.2 ∧
    (get_server_status cfg0 wStart "a").1 =
      some { id := "a", name := "a", running := false, path := serverA.path,
             port := 25565, pid := none, cpu_percent := none,
             memory_mb := none } :=
  ⟨by decide,
   (c10_optional_fields_defaults cfg0 wStart "a" serverA "T" 7 (by decide)
      rfl rfl rfl rfl (by decide) (by decide)).1,
   (c10_optional_fields_defaults cfg0 wStart "a" serverA "T" 7 (by decide)
      rfl rfl rfl rfl (by decide) (by decide)).2.2⟩

/-! ## Lemmas about path prefixes and the backup copy -/

theorem stripPre_append (src rel : FPath) : stripPre src (src ++ rel) = some rel := by
  induction src with
  | nil => rfl
  | cons a as ih => simp [stripPre, ih]

theorem stripPre_eq_some {src p rel : FPath} (h : stripPre src p = some rel) :
    p = src ++ rel := by
  induction src generalizing p with
  | nil =>
    have : p = rel := by injection h
    rw [this, List.nil_append]
  | cons a as ih =>
    cases p with
    | nil => cases h
    | cons b bs =>
      rw [stripPre] at h
      by_cases hab : a = b
      · rw [if_pos hab] at h
        rw [List.cons_append, ← hab, ih h]
      · rw [if_neg hab] at h
        cases h

theorem stripPre_self (p : FPath) : stripPre p p = some [] := by
  have := stripPre_append p []
  rwa [List.append_nil] at this

theorem stripPre_append_left (root xs ys : FPath) :
    stripPre (root ++ xs) (root ++ ys) = stripPre xs ys := by
  induction root with
  | nil => rfl
  | cons a r ih => simp [stripPre, ih]

theorem stripPre_child_ne (root : FPath) (n bn : String) (rel : FPath)
    (h : ¬ n = bn) :
    stripPre (root ++ [n]) (root ++ bn :: rel) = none := by
  rw [stripPre_append_left root [n] (bn :: rel), stripPre, if_neg h]

theorem alookup_none_of_stripPre_none {α : Type} (bp rel : FPath)
    (l : List (FPath × α)) (h : ∀ kv ∈ l, stripPre bp kv.1 = none) :
    alookup (bp ++ rel) l = none := by
  apply alookup_eq_none_of_not_key
  intro kv hm he
  have h1 := h kv hm
  rw [he, stripPre_append] at h1
  cases h1

theorem alookup_none_of_stripPre_none_self {α : Type} (bp : FPath)
    (l : List (FPath × α)) (h : ∀ kv ∈ l, stripPre bp kv.1 = none) :
    alookup bp l = none := by
  have := alookup_none_of_stripPre_none bp [] l h
  rwa [List.append_nil] at this

theorem alookup_isSome_key {κ α : Type} [DecidableEq κ] {k : κ}
    {l : List (κ × α)} (h : (alookup k l).isSome = true) :
    k ∈ l.map Prod.fst := by
  cases halk : alookup k l with
  | none => rw [halk] at h; cases h
  | some v => exact List.mem_map.mpr ⟨(k, v), alookup_mem halk, rfl⟩

theorem copiedFiles_nil (src dst : FPath) : copiedFiles [] src dst = [] := rfl

theorem copiedFiles_cons_none (pc : FPath × String) (rest : List (FPath × String))
    (src dst : FPath) (hsp : stripPre src pc.1 = none) :
    copiedFiles (pc :: rest) src dst = copiedFiles rest src dst := by
  simp only [copiedFiles, List.filterMap_cons, hsp]

theorem copiedFiles_cons_skip (pc : FPath × String) (rest : List (FPath × String))
    (src dst rel' : FPath) (hsp : stripPre src pc.1 = some rel')
    (hskip : (rel'.isEmpty || relExcluded rel') = true) :
    copiedFiles (pc :: rest) src dst = copiedFiles rest src dst := by
  simp only [copiedFiles, List.filterMap_cons, hsp, hskip, if_true]

theorem copiedFiles_cons_keep (pc : FPath × String) (rest : List (FPath × String))
    (src dst rel' : FPath) (hsp : stripPre src pc.1 = some rel')
    (hskip : (rel'.isEmpty || relExcluded rel') = false) :
    copiedFiles (pc :: rest) src dst =
      (dst ++ rel', pc.2) :: copiedFiles rest src dst := by
  simp only [copiedFiles, List.filterMap_cons, hsp, hskip, Bool.false_eq_true,
    if_false]

theorem alookup_copiedFiles_keep (l : List (FPath × String)) (src dst rel : FPath)
    (h0 : rel ≠ []) (hex : relExcluded rel = false) :
    alookup (dst ++ rel) (copiedFiles l src dst) = alookup (src ++ rel) l := by
  induction l with
  | nil => rfl
  | cons pc rest ih =>
    cases hsp : stripPre src pc.1 with
    | none =>
      have hne : ¬ pc.1 = src ++ rel := fun he => by
        rw [he, stripPre_append] at hsp
        cases hsp
      rw [copiedFiles_cons_none pc rest src dst hsp, alookup, if_neg hne]
      exact ih
    | some rel' =>
      have hp1 : pc.1 = src ++ rel' := stripPre_eq_some hsp
      cases hskip : (rel'.isEmpty || relExcluded rel') with
      | true =>
        have hrel : ¬ rel' = rel := by
          intro he
          subst he
          rcases Bool.or_eq_true_iff.mp hskip with hie | hexx
          · exact h0 (List.isEmpty_iff.mp hie)
          · rw [hexx] at hex
            cases hex
        have hne : ¬ pc.1 = src ++ rel := by
          rw [hp1]
          exact fun he => hrel (List.append_cancel_left he)
        rw [copiedFiles_cons_skip pc rest src dst rel' hsp hskip, alookup,
          if_neg hne]
        exact ih
      | false =>
        rw [copiedFiles_cons_keep pc rest src dst rel' hsp hskip]
        by_cases heq : rel' = rel
        · subst heq
          rw [alookup, alookup, if_pos (by rfl), if_pos hp1]
        · have hd : ¬ (dst ++ rel', pc.2).1 = dst ++ rel :=
            fun he => heq (List.append_cancel_left he)
          have hs2 : ¬ pc.1 = src ++ rel := by
            rw [hp1]
            exact fun he => heq (List.append_cancel_left he)
          rw [alookup, alookup, if_neg hd, if_neg hs2]
          exact ih

theorem alookup_copiedFiles_excluded (l : List (FPath × String))
    (src dst rel : FPath) (hex : relExcluded rel = true) :
    alookup (dst ++ rel) (copiedFiles l src dst) = none := by
  induction l with
  | nil => rfl
  | cons pc rest ih =>
    cases hsp : stripPre src pc.1 with
    | none =>
      rw [copiedFiles_cons_none pc rest src dst hsp]
      exact ih
    | some rel' =>
      cases hskip : (rel'.isEmpty || relExcluded rel') with
      | true =>
        rw [copiedFiles_cons_skip pc rest src dst rel' hsp hskip]
        exact ih
      | false =>
        have hrel : ¬ rel' = rel := by
          intro he
          subst he
          rcases Bool.or_eq_true_iff.mp (by rw [hex]; simp :
            (rel'.isEmpty || relExcluded rel') = true) with hie | hexx
          · rw [Bool.or_eq_false_iff] at hskip
            rw [hie] at hskip
            cases hskip.1
          · rw [Bool.or_eq_false_iff] at hskip
            rw [hexx] at hskip
            cases hskip.2
        have hd : ¬ (dst ++ rel', pc.2).1 = dst ++ rel :=
          fun he => hrel (List.append_cancel_left he)
        rw [copiedFiles_cons_keep pc rest src dst rel' hsp hskip, alookup,
          if_neg hd]
        exact ih

theorem copiedFiles_mem {l : List (FPath × String)} {src dst : FPath}
    {pc : FPath × String} (h : pc ∈ copiedFiles l src dst) :
    ∃ rel, rel ≠ [] ∧ relExcluded rel = false ∧ pc.1 = dst ++ rel := by
  obtain ⟨a, _, hfa⟩ := List.mem_filterMap.mp h
  cases hsp : stripPre src a.1 with
  | none =>
    rw [hsp] at hfa
    cases hfa
  | some rel' =>
    rw [hsp] at hfa
    dsimp only at hfa
    cases hskip : (rel'.isEmpty || relExcluded rel') with
    | true =>
      rw [hskip] at hfa
      simp at hfa
    | false =>
      rw [hskip] at hfa
      simp only [Bool.false_eq_true, if_false] at hfa
      refine ⟨rel', ?_, ?_, ?_⟩
      · rcases Bool.or_eq_false_iff.mp hskip with ⟨hie, _⟩
        intro he
        rw [he] at hie
        cases hie
      · exact (Bool.or_eq_false_iff.mp hskip).2
      · have : (dst ++ rel', a.2) = pc := by injection hfa
        rw [← this]

theorem sizeUnder_zero_part (l : List (FPath × String)) (root : FPath)
    (h : ∀ pc ∈ l, stripPre root pc.1 = none) :
    (l.filterMap fun pc =>
      match stripPre root pc.1 with
      | some rel => if rel.isEmpty then none else some pc.2.utf8ByteSize
      | none => none) = [] := by
  rw [List.filterMap_eq_nil_iff]
  intro pc hm
  rw [h pc hm]

theorem sizeUnder_all_part (l : List (FPath × String)) (root : FPath)
    (h : ∀ pc ∈ l, ∃ rel, rel ≠ [] ∧ pc.1 = root ++ rel) :
    (l.filterMap fun pc =>
      match stripPre root pc.1 with
      | some rel => if rel.isEmpty then none else some pc.2.utf8ByteSize
      | none => none) = l.map (fun pc => pc.2.utf8ByteSize) := by
  induction l with
  | nil => rfl
  | cons pc rest ih =>
    obtain ⟨rel, h0, hp⟩ := h pc (List.mem_cons_self pc rest)
    have hie : rel.isEmpty = false := by
      cases rel with
      | nil => exact absurd rfl h0
      | cons x xs => rfl
    rw [List.filterMap_cons, List.map_cons, hp, stripPre_append]
    dsimp only
    rw [hie]
    simp only [Bool.false_eq_true, if_false]
    rw [ih (fun q hq => h q (List.mem_cons_of_mem pc hq))]

theorem mem_childNames {w : World} {root : FPath} {n : String} :
    n ∈ childNames w root ↔
      ((root ++ [n]) ∈ w.files.map Prod.fst ∨
       (root ++ [n]) ∈ w.dirs.map Prod.fst) := by
  unfold childNames
  rw [List.mem_filterMap]
  constructor
  · rintro ⟨p, hm, hf⟩
    cases hsp : stripPre root p with
    | none =>
      rw [hsp] at hf
      cases hf
    | some rel =>
      rw [hsp] at hf
      match rel, hf with
      | [x], hf =>
        have hx : x = n := by injection hf
        subst hx
        have hp := stripPre_eq_some hsp
        rw [← hp]
        exact List.mem_append.mp hm
  · intro h
    refine ⟨root ++ [n], List.mem_append.mpr h, ?_⟩
    rw [stripPre_append]

theorem strStartsWith_append (a b : String) : strStartsWith a (a ++ b) = true := by
  unfold strStartsWith
  rw [show (a ++ b).data = a.data ++ b.data from rfl]
  induction a.data with
  | nil => simp [List.isPrefixOf]
  | cons c cs ih => simp [List.isPrefixOf, ih]

theorem listEntry_some {cfg : Config} {w : World} {sid : Option String}
    {n : String} {e : BackupEntry} (h : listEntry cfg w sid n = some e) :
    e.name = n ∧ (alookup (cfg.backupsDir ++ [n]) w.dirs).isSome = true ∧
    matchesSid sid n = true ∧
    e.size_mb = (sizeUnder w (cfg.backupsDir ++ [n]) : ℚ) / 1024 / 1024 := by
  cases halk : alookup (cfg.backupsDir ++ [n]) w.dirs with
  | none =>
    rw [listEntry, halk] at h
    cases h
  | some m =>
    rw [listEntry, halk] at h
    dsimp only at h
    cases hm : matchesSid sid n with
    | false =>
      rw [hm] at h
      simp at h
    | true =>
      rw [if_pos hm] at h
      have he := Option.some_inj.mp h
      refine ⟨?_, rfl, rfl, ?_⟩
      · rw [← he]
      · rw [← he]

theorem listEntry_of_dir {cfg : Config} {w : World} {sid : Option String}
    {n : String} {m : Nat} (halk : alookup (cfg.backupsDir ++ [n]) w.dirs = some m)
    (hm : matchesSid sid n = true) :
    listEntry cfg w sid n =
      some { name := n, path := joinP (cfg.backupsDir ++ [n]), created := m,
             size_mb := (sizeUnder w (cfg.backupsDir ++ [n]) : ℚ) / 1024 / 1024 } := by
  rw [listEntry, halk]
  dsimp only
  rw [if_pos hm]

theorem filterMap_listEntry_names (cfg : Config) (w : World) (sid : Option String)
    (ns : List String) :
    ((ns.filterMap (listEntry cfg w sid)).map (fun e => e.name)) =
      ns.filter (fun n => (alookup (cfg.backupsDir ++ [n]) w.dirs).isSome
        && matchesSid sid n) := by
  induction ns with
  | nil => rfl
  | cons n rest ih =>
    rw [List.filterMap_cons, List.filter_cons]
    cases halk : alookup (cfg.backupsDir ++ [n]) w.dirs with
    | none =>
      rw [listEntry, halk]
      dsimp only
      rw [ih]
      simp only [Option.isSome_none, Bool.false_and, Bool.false_eq_true,
        if_false]
    | some m =>
      cases hm : matchesSid sid n with
      | false =>
        rw [listEntry, halk]
        dsimp only
        rw [hm]
        simp only [Bool.false_eq_true, if_false, halk, Option.isSome_some,
          Bool.true_and]
        rw [ih]
      | true =>
        rw [listEntry_of_dir halk hm]
        dsimp only
        simp only [halk, Option.isSome_some, hm, Bool.and_self, if_true]
        rw [List.map_cons, ih]

theorem create_backup_happy (cfg : Config) (w : World) (sid ts : String)
    (server : ServerDef) (m : Nat)
    (hs : alookup sid cfg.servers = some server)
    (hsrc : alookup server.path w.dirs = some m)
    (hio : w.ioErrors = [])
    (hnf : ∀ pc ∈ w.files,
      stripPre (cfg.backupsDir ++ [sid ++ "_" ++ ts]) pc.1 = none)
    (hnd : ∀ pm ∈ w.dirs,
      stripPre (cfg.backupsDir ++ [sid ++ "_" ++ ts]) pm.1 = none) :
    create_backup cfg w sid ts =
      ((true, "Backup created: " ++ (sid ++ "_" ++ ts)),
       { w with
           files := w.files ++ copiedFiles w.files server.path
                      (cfg.backupsDir ++ [sid ++ "_" ++ ts]),
           dirs := w.dirs ++ (cfg.backupsDir ++ [sid ++ "_" ++ ts], m)
                     :: copiedDirs w.dirs server.path
                          (cfg.backupsDir ++ [sid ++ "_" ++ ts]) }) := by
  have hpe : pathExists w server.path = true := by simp [pathExists, hsrc]
  have hbf : alookup (cfg.backupsDir ++ [sid ++ "_" ++ ts]) w.files = none :=
    alookup_none_of_stripPre_none_self _ _ hnf
  have hbd : alookup (cfg.backupsDir ++ [sid ++ "_" ++ ts]) w.dirs = none :=
    alookup_none_of_stripPre_none_self _ _ hnd
  have hbpe : pathExists w (cfg.backupsDir ++ [sid ++ "_" ++ ts]) = false := by
    simp [pathExists, hbf, hbd]
  have hok : (w.files.filter fun pc => (alookup pc.1 w.ioErrors).isNone)
      = w.files :=
    List.filter_eq_self.mpr (fun pc _ => by rw [hio]; rfl)
  have hbad : (w.files.filter fun pc => (alookup pc.1 w.ioErrors).isSome)
      = [] :=
    List.filter_eq_nil_iff.mpr (fun pc _ => by rw [hio]; simp [alookup])
  simp [create_backup, hs, hpe, hbpe, hsrc, hok, hbad, copiedFiles_nil]

theorem list_backups_spec (cfg : Config) (w : World) (sid : String)
    (hroot : pathExists w cfg.backupsDir = true) :
    (∀ e ∈ list_backups cfg w (some sid),
       strStartsWith (sid ++ "_") e.name = true ∧
       (alookup (cfg.backupsDir ++ [e.name]) w.dirs).isSome = true ∧
       e.size_mb = (sizeUnder w (cfg.backupsDir ++ [e.name]) : ℚ) / 1024 / 1024) ∧
    (∀ n (m : Nat), alookup (cfg.backupsDir ++ [n]) w.dirs = some m →
       strStartsWith (sid ++ "_") n = true →
       ∃ e, e ∈ list_backups cfg w (some sid) ∧ e.name = n) ∧
    List.Pairwise revLe
      ((list_backups cfg w (some sid)).map (fun e => e.name)) := by
  have hlb : list_backups cfg w (some sid) =
      (List.insertionSort revLe (childNames w cfg.backupsDir).dedup).filterMap
        (listEntry cfg w (some sid)) := by
    rw [list_backups, if_pos hroot]
  refine ⟨?_, ?_, ?_⟩
  · intro e he
    rw [hlb] at he
    obtain ⟨n, _, hfe⟩ := List.mem_filterMap.mp he
    obtain ⟨hname, hdir, hmatch, hsize⟩ := listEntry_some hfe
    refine ⟨?_, ?_, ?_⟩
    · rw [hname]
      exact hmatch
    · rw [hname]
      exact hdir
    · rw [hname]
      exact hsize
  · intro n m halk hstart
    have hmatch : matchesSid (some sid) n = true := hstart
    have hchild : n ∈ childNames w cfg.backupsDir :=
      mem_childNames.mpr (Or.inr (List.mem_map.mpr
        ⟨(cfg.backupsDir ++ [n], m), alookup_mem halk, rfl⟩))
    have hin : n ∈ List.insertionSort revLe (childNames w cfg.backupsDir).dedup :=
      ((List.perm_insertionSort revLe _).mem_iff).mpr
        (List.mem_dedup.mpr hchild)
    refine ⟨{ name := n, path := joinP (cfg.backupsDir ++ [n]), created := m,
              size_mb := (sizeUnder w (cfg.backupsDir ++ [n]) : ℚ) / 1024 / 1024 },
      ?_, rfl⟩
    rw [hlb]
    exact List.mem_filterMap.mpr ⟨n, hin, listEntry_of_dir halk hmatch⟩
  · rw [hlb, filterMap_listEntry_names]
    exact List.Pairwise.sublist (List.filter_sublist _)
      (List.sorted_insertionSort revLe _)

/-- C8: backing up a configured server whose working directory exists
copies exactly the non-ignored files of the tree into the fresh
directory `<serverId>_<timestamp>` under the backups root — PID files
and the pointer file are absent from the copy — and `list_backups`
afterwards returns exactly the backup directories whose name starts
with `<serverId>_` (the new one among them, sized as the sum of the
copied file sizes; the others with their unchanged sizes), in reverse
name order. -/
theorem c8_backup_roundtrip (cfg : Config) (w : World) (sid ts : String)
    (server : ServerDef) (m mr : Nat)
    (hs : alookup sid cfg.servers = some server)
    (hsrc : alookup server.path w.dirs = some m)
    (hroot : alookup cfg.backupsDir w.dirs = some mr)
    (hio : w.ioErrors = [])
    (hnf : ∀ pc ∈ w.files,
      stripPre (cfg.backupsDir ++ [sid ++ "_" ++ ts]) pc.1 = none)
    (hnd : ∀ pm ∈ w.dirs,
      stripPre (cfg.backupsDir ++ [sid ++ "_" ++ ts]) pm.1 = none) :
    (create_backup cfg w sid ts).1 =
      (true, "Backup created: " ++ (sid ++ "_" ++ ts)) ∧
    (∀ rel, rel ≠ [] → relExcluded rel = false →
      alookup ((cfg.backupsDir ++ [sid ++ "_" ++ ts]) ++ rel)
          (create_backup cfg w sid ts).2.files =
        alookup (server.path ++ rel) w.files) ∧
    (∀ rel, relExcluded rel = true →
      alookup ((cfg.backupsDir ++ [sid ++ "_" ++ ts]) ++ rel)
        (create_backup cfg w sid ts).2.files = none) ∧
    (∀ e ∈ list_backups cfg (create_backup cfg w sid ts).2 (some sid),
      strStartsWith (sid ++ "_") e.name = true ∧
      (alookup (cfg.backupsDir ++ [e.name])
        (create_backup cfg w sid ts).2.dirs).isSome = true) ∧
    (∀ n (m2 : Nat),
      alookup (cfg.backupsDir ++ [n]) (create_backup cfg w sid ts).2.dirs
        = some m2 →
      strStartsWith (sid ++ "_") n = true →
      ∃ e, e ∈ list_backups cfg (create_backup cfg w sid ts).2 (some sid) ∧
        e.name = n) ∧
    List.Pairwise revLe
      ((list_backups cfg (create_backup cfg w sid ts).2 (some sid)).map
        (fun e => e.name)) ∧
    (∃ e, e ∈ list_backups cfg (create_backup cfg w sid ts).2 (some sid) ∧
      e.name = sid ++ "_" ++ ts ∧
      e.size_mb = (((((copiedFiles w.files server.path
          (cfg.backupsDir ++ [sid ++ "_" ++ ts])).map
            (fun pc => pc.2.utf8ByteSize)).sum : Nat) : ℚ) / 1024 / 1024)) ∧
    (∀ e ∈ list_backups cfg (create_backup cfg w sid ts).2 (some sid),
      ¬ e.name = sid ++ "_" ++ ts →
      e.size_mb =
        (sizeUnder w (cfg.backupsDir ++ [e.name]) : ℚ) / 1024 / 1024) := by
  have hcb := create_backup_happy cfg w sid ts server m hs hsrc hio hnf hnd
  have hw2 : (create_backup cfg w sid ts).2 =
      { w with
          files := w.files ++ copiedFiles w.files server.path
                     (cfg.backupsDir ++ [sid ++ "_" ++ ts]),
          dirs := w.dirs ++ (cfg.backupsDir ++ [sid ++ "_" ++ ts], m)
                    :: copiedDirs w.dirs server.path
                         (cfg.backupsDir ++ [sid ++ "_" ++ ts]) } := by
    rw [hcb]
  have hroot2 : pathExists (create_backup cfg w sid ts).2 cfg.backupsDir
      = true := by
    rw [hw2]
    simp [pathExists, alookup_append_of_some cfg.backupsDir _ hroot]
  have hspec := list_backups_spec cfg (create_backup cfg w sid ts).2 sid hroot2
  have hsz : sizeUnder (create_backup cfg w sid ts).2
      (cfg.backupsDir ++ [sid ++ "_" ++ ts]) =
      ((copiedFiles w.files server.path
        (cfg.backupsDir ++ [sid ++ "_" ++ ts])).map
          (fun pc => pc.2.utf8ByteSize)).sum := by
    rw [hw2]
    unfold sizeUnder
    dsimp only
    rw [List.filterMap_append, sizeUnder_zero_part w.files _ hnf,
      sizeUnder_all_part _ _
        (fun pc hm => by
          obtain ⟨rel, h0, _, hp⟩ := copiedFiles_mem hm
          exact ⟨rel, h0, hp⟩),
      List.nil_append]
  refine ⟨by rw [hcb], ?_, ?_, ?_, ?_, ?_, ?_, ?_⟩
  · intro rel h0 hex
    rw [hw2]
    dsimp only
    rw [alookup_append_of_none _ _
      (alookup_none_of_stripPre_none _ rel w.files hnf)]
    exact alookup_copiedFiles_keep w.files server.path _ rel h0 hex
  · intro rel hex
    rw [hw2]
    dsimp only
    rw [alookup_append_of_none _ _
      (alookup_none_of_stripPre_none _ rel w.files hnf)]
    exact alookup_copiedFiles_excluded w.files server.path _ rel hex
  · intro e he
    exact ⟨(hspec.1 e he).1, (hspec.1 e he).2.1⟩
  · intro n m2 halk hst
    exact hspec.2.1 n m2 halk hst
  · exact hspec.2.2
  · have hbd : alookup (cfg.backupsDir ++ [sid ++ "_" ++ ts]) w.dirs = none :=
      alookup_none_of_stripPre_none_self _ _ hnd
    have halkbp : alookup (cfg.backupsDir ++ [sid ++ "_" ++ ts])
        (create_backup cfg w sid ts).2.dirs = some m := by
      rw [hw2]
      dsimp only
      rw [alookup_append_of_none _ _ hbd, alookup, if_pos (by rfl)]
    obtain ⟨e, hein, hname⟩ := hspec.2.1 (sid ++ "_" ++ ts) m halkbp
      (strStartsWith_append (sid ++ "_") ts)
    refine ⟨e, hein, hname, ?_⟩
    have hse := (hspec.1 e hein).2.2
    rw [hname] at hse
    rw [hse, hsz]
  · intro e hein hne
    have hse := (hspec.1 e hein).2.2
    have hq : sizeUnder (create_backup cfg w sid ts).2
        (cfg.backupsDir ++ [e.name]) =
        sizeUnder w (cfg.backupsDir ++ [e.name]) := by
      rw [hw2]
      unfold sizeUnder
      dsimp only
      rw [List.filterMap_append]
      have hzero : ((copiedFiles w.files server.path
          (cfg.backupsDir ++ [sid ++ "_" ++ ts])).filterMap fun pc =>
            match stripPre (cfg.backupsDir ++ [e.name]) pc.1 with
            | some rel => if rel.isEmpty then none
                          else some pc.2.utf8ByteSize
            | none => none) = [] := by
        rw [List.filterMap_eq_nil_iff]
        intro pc hm
        obtain ⟨rel, _, _, hp⟩ := copiedFiles_mem hm
        rw [hp]
        have hassoc : (cfg.backupsDir ++ [sid ++ "_" ++ ts]) ++ rel =
            cfg.backupsDir ++ (sid ++ "_" ++ ts) :: rel := by
          rw [List.append_assoc, List.singleton_append]
        rw [hassoc, stripPre_child_ne _ _ _ _ hne]
      rw [hzero, List.append_nil]
    rw [hse, hq]

/-- A backup fixture: a server tree holding a data file, a PID file and
the pointer file, next to an existing backups root. -/
def wBak : World :=
  { files := [(["srv", "a", "world.dat"], "DATA0123"),
              (["srv", "a", "server.pid"], "42"),
              (["srv", "a", "current.log"], "x")],
    dirs := [(["srv", "a"], 100), (["backups"], 50)],
    procs := [],
    ioErrors := [] }

theorem c8_witness :
    alookup "a" cfg0.servers = some serverA ∧
    (create_backup cfg0 wBak "a" "2024").1 =
      (true, "Backup created: " ++ ("a" ++ "_" ++ "2024")) ∧
    (∃ e, e ∈ list_backups cfg0 (create_backup cfg0 wBak "a" "2024").2
        (some "a") ∧
      e.name = "a" ++ "_" ++ "2024" ∧
      e.size_mb = (((((copiedFiles wBak.files serverA.path
          (cfg0.backupsDir ++ ["a" ++ "_" ++ "2024"])).map
            (fun pc => pc.2.utf8ByteSize)).sum : Nat) : ℚ) / 1024 / 1024)) :=
  ⟨by decide,
   (c8_backup_roundtrip cfg0 wBak "a" "2024" serverA 100 50 (by decide)
      (by decide) (by decide) rfl (by decide) (by decide)).1,
   (c8_backup_roundtrip cfg0 wBak "a" "2024" serverA 100 50 (by decide)
      (by decide) (by decide) rfl (by decide) (by decide)).2.2.2.2.2.2.1⟩

end MCM
